import Mathlib

/-!
Verification of the Retell booking scheduling core (`server.js` and its
service variants).

Time model: instants are natural numbers counting seconds of local time in
the configured timezone, with second 0 falling on a Monday at 00:00 local.
Days are uniform (86400 seconds); the model is a fixed-offset timezone with
no DST transitions.  Luxon `DateTime` comparison is millisecond-precise and
the repository only ever builds instants from whole-minute arithmetic, so a
second-precise model is faithful for every code path; second precision (as
opposed to minute precision) matters because `validateRequestedStart`
inspects only the `minute` component of a caller-supplied instant and a
caller may supply seconds.

Configuration values keep the units of the environment variables: lead,
duration, granularity step in minutes, business hours as hour-of-day,
horizon in days.
-/

namespace RetellBooking

/-- SchedulingConfig: the process-wide configuration read once at startup
(`MIN_LEAD_MINUTES`, `DEMO_DURATION_MINUTES`, `SLOT_GRANULARITY_MINUTES`,
`SEARCH_DAYS`, `WORK_START_HOUR`, `WORK_END_HOUR`). -/
structure Config where
  leadMinutes : Nat
  durationMinutes : Nat
  stepMinutes : Nat
  searchDays : Nat
  startHour : Nat
  endHour : Nat
deriving Repr, DecidableEq

/-- Luxon `startOf("day")`: midnight of the instant's local day. -/
def startOfDay (t : Nat) : Nat := t / 86400 * 86400

/-- Luxon `weekday`: ISO weekday, 1 = Monday .. 7 = Sunday.  The epoch is a
Monday, so the day index modulo 7 gives the ISO weekday minus one. -/
def weekday (t : Nat) : Nat := t / 86400 % 7 + 1

/-- Embeds `isWeekday(dt)`: `dt.weekday >= 1 && dt.weekday <= 5`. -/
def isWeekday (t : Nat) : Bool := 1 ≤ weekday t && weekday t ≤ 5

/-- Luxon `minute`: the minute-of-hour component of an instant. -/
def minuteOfHour (t : Nat) : Nat := t / 60 % 60

/-- A half-open time interval `{start, end}`.  The same shape embeds the
candidate/confirmed slot objects and the luxon `Interval` busy periods
(`Interval.fromDateTimes(b.start, b.end)`). -/
structure Slot where
  start : Nat
  «end» : Nat
deriving Repr, DecidableEq

/-- Embeds luxon `Interval.overlaps(other)`: `this.s < other.e && other.s <
this.e`, the half-open overlap test. -/
def overlaps (a b : Slot) : Bool := a.start < b.«end» && b.start < a.«end»

/-- Embeds `slotIsFree(slot, busyIntervals)`:
`!busyIntervals.some(b => slotInterval.overlaps(b))`. -/
def slotIsFree (s : Slot) (busy : List Slot) : Bool := !(busy.any (overlaps s))

/-- Embeds the availability filter `slots.filter(s => slotIsFree(s, busy))`
(the `/retell/get_slots` handler of the first server variant). -/
def freeSlots (slots busy : List Slot) : List Slot :=
  slots.filter (fun s => slotIsFree s busy)

/-- Embeds the inner `while` loop of `buildCandidateSlots` (and of
`findNearbyFreeSlots`, which runs the same loop with no `earliest` guard:
pass `earliest = 0`):

`while (cursor.plus({minutes: duration}) <= end) { if (cursor >= earliest)
slots.push({start: cursor, end: cursor + duration}); cursor += step; }`

The loop is embedded with an explicit iteration bound `fuel`; the call
sites pass `(dayEnd - cursor) / step + 1`, which lemma
`slotLoop_fuel_stable` shows is never the reason the loop stops when the
step is positive (for step 0 the JS loop does not terminate, a case outside
every claim). -/
def slotLoop (earliest dur step dayEnd : Nat) : Nat → Nat → List Slot
  | _, 0 => []
  | cursor, fuel + 1 =>
      if cursor + dur ≤ dayEnd then
        (if earliest ≤ cursor then [⟨cursor, cursor + dur⟩] else [])
          ++ slotLoop earliest dur step dayEnd (cursor + step) fuel
      else []

/-- Embeds the outer `for (let d = 0; d < days; d++)` loop shared by
`buildCandidateSlots` and `findNearbyFreeSlots`: day `d` is
`earliest.startOf("day").plus({days: d})`, non-weekdays are skipped, and
each weekday contributes its `slotLoop` run from `startHour:00` bounded by
`endHour:00`.  `day` advances by 86400 seconds per iteration (uniform
days), `n` counts the remaining days. -/
def buildFrom (earliest dur step startMin endMin : Nat) : Nat → Nat → List Slot
  | _, 0 => []
  | day, n + 1 =>
      (if isWeekday day then
        slotLoop earliest dur step (day + endMin) (day + startMin)
          ((day + endMin - (day + startMin)) / step + 1)
      else [])
        ++ buildFrom earliest dur step startMin endMin (day + 86400) n

/-- Embeds `buildCandidateSlots(nowLocal)`: `earliest = now + lead`, then
`searchDays` days starting at `earliest.startOf("day")`. -/
def buildCandidateSlots (cfg : Config) (now : Nat) : List Slot :=
  let earliest := now + cfg.leadMinutes * 60
  buildFrom earliest (cfg.durationMinutes * 60) (cfg.stepMinutes * 60)
    (cfg.startHour * 3600) (cfg.endHour * 3600) (startOfDay earliest) cfg.searchDays

/-- Embeds the candidate construction of `findNearbyFreeSlots`: the same
day/cursor loops over 5 calendar days starting at
`preferredStartLocal.startOf("day")`, with no `earliest` guard (the
`earliest = 0` argument keeps every cursor) and no lead-time input. -/
def nearbyCandidates (cfg : Config) (preferred : Nat) : List Slot :=
  buildFrom 0 (cfg.durationMinutes * 60) (cfg.stepMinutes * 60)
    (cfg.startHour * 3600) (cfg.endHour * 3600) (startOfDay preferred) 5

/-- Absolute distance used by `findNearbyFreeSlots`:
`Math.abs(s.start.toMillis() - preferredStartLocal.toMillis())`. -/
def distTo (preferred : Nat) (s : Slot) : Nat :=
  max s.start preferred - min s.start preferred

/-- Stable insertion of a slot into a list already sorted by distance: the
slot goes before the first element whose distance is not strictly smaller,
so an earlier-listed slot precedes later ties. -/
def insertByDist (preferred : Nat) (s : Slot) : List Slot → List Slot
  | [] => [s]
  | b :: l =>
      if distTo preferred b < distTo preferred s then b :: insertByDist preferred s l
      else s :: b :: l

/-- Embeds `.sort((a, b) => a.distMs - b.distMs)`: `Array.prototype.sort`
is stable (ES2019), so the call is a stable sort by ascending distance;
stable insertion sort computes the same list. -/
def sortByDist (preferred : Nat) : List Slot → List Slot
  | [] => []
  | s :: l => insertByDist preferred s (sortByDist preferred l)

/-- Embeds the selection loop of `findNearbyFreeSlots`: walk the
distance-sorted candidates, keep the free ones, skip a slot whose start
already occurs in the output (`!out.some(x => x.start_time ===
item.start_time)`), and stop once `count` slots are collected (checked
after each push). -/
def nearbyLoop (busy : List Slot) (count : Nat) : List Slot → List Slot → List Slot
  | acc, [] => acc
  | acc, s :: rest =>
      if slotIsFree s busy && !(acc.any (fun x => x.start == s.start)) then
        if count ≤ (acc ++ [s]).length then acc ++ [s]
        else nearbyLoop busy count (acc ++ [s]) rest
      else nearbyLoop busy count acc rest

/-- Embeds `findNearbyFreeSlots(calendar, preferredStartLocal, count)`.
The busy intervals fetched for the candidate range are passed in as the
`busy` argument (the external calendar collaborator's answer). -/
def findNearbyFreeSlots (cfg : Config) (preferred : Nat) (busy : List Slot)
    (count : Nat) : List Slot :=
  match nearbyCandidates cfg preferred with
  | [] => []
  | c :: cs => nearbyLoop busy count [] (sortByDist preferred (c :: cs))

/-- Embeds the first-N selection loop of `getNextAvailableSlots` (and
`pickFirstNFreeSlots`): push each free slot, break once `count` are
collected (checked after each push); `k` is the number already pushed. -/
def takeFreeLoop (busy : List Slot) (count : Nat) : Nat → List Slot → List Slot
  | _, [] => []
  | k, s :: rest =>
      if slotIsFree s busy then
        if count ≤ k + 1 then [s] else s :: takeFreeLoop busy count (k + 1) rest
      else takeFreeLoop busy count k rest

/-- Embeds `getNextAvailableSlots(calendar, count)`: build candidates from
`now`, return `[]` when there are none, otherwise take the first `count`
free ones.  Busy intervals are passed in as `busy`. -/
def getNextAvailableSlots (cfg : Config) (now : Nat) (busy : List Slot)
    (count : Nat) : List Slot :=
  match buildCandidateSlots cfg now with
  | [] => []
  | c :: cs => takeFreeLoop busy count 0 (c :: cs)

/-- Outcome of `validateRequestedStart(startTimeISO)`, one constructor per
`return` site, in source order. -/
inductive Validation where
  /-- `{ok: true, start}`: every check passed. -/
  | ok (start : Nat)
  /-- missing `start_time`. -/
  | missingStart
  /-- `DateTime.fromISO` produced an invalid instant. -/
  | invalidFormat
  /-- `start < now.plus({minutes: lead})`. -/
  | tooSoon
  /-- `!isWeekday(start)`. -/
  | nonBusinessDay
  /-- `start < dayStart || end > dayEnd`. -/
  | outsideHours
  /-- `start.minute % step !== 0`. -/
  | badGranularity
deriving Repr, DecidableEq

/-- A caller-supplied `start_time` field: `none` is an absent or empty
(falsy) field, `some none` a present string that luxon fails to parse,
`some (some t)` a present string parsing to local instant `t`. -/
abbrev StartField := Option (Option Nat)

/-- Embeds the JS granularity test `start.minute % step !== 0` as its
passing condition.  For `step = 0`, JS evaluates `minute % 0` to `NaN` and
`NaN !== 0` holds, so the check always rejects; the `step ≠ 0` conjunct
reproduces that. -/
def granularityOk (step : Nat) (t : Nat) : Bool :=
  step ≠ 0 && minuteOfHour t % step == 0

/-- Embeds `validateRequestedStart(startTimeISO)`: the short-circuiting
check sequence (missing, parse, lead time, weekday, business-hour window,
granularity), with `dayStart = start.startOf("day").set({hour: startHour,
minute: 0})` and `dayEnd` likewise at `endHour`. -/
def validateRequestedStart (cfg : Config) (now : Nat) :
    StartField → Validation
  | none => .missingStart
  | some none => .invalidFormat
  | some (some t) =>
      if t < now + cfg.leadMinutes * 60 then .tooSoon
      else if !isWeekday t then .nonBusinessDay
      else if t < startOfDay t + cfg.startHour * 3600
          || startOfDay t + cfg.endHour * 3600 < t + cfg.durationMinutes * 60 then
        .outsideHours
      else if !granularityOk cfg.stepMinutes t then .badGranularity
      else .ok t

/-- Tests whether a validation outcome is the passing one
(`validation.ok` in the handlers). -/
def Validation.isOk : Validation → Bool
  | .ok _ => true
  | _ => false

/-- A caller-supplied text field: `none` when absent, `some s` when
present; JS falsiness of the value is `isFalsy`. -/
abbrev TextField := Option String

/-- JS falsiness for a text field: absent (`undefined`) or the empty
string. -/
def isFalsy : TextField → Bool
  | none => true
  | some s => s.isEmpty

/-- The flat request payload destructured by `book_demo`. -/
structure Payload where
  full_name : TextField
  email : TextField
  phone : TextField
  business_type : TextField
  notes : TextField
  start_time : StartField

/-- Embeds the `missing` accumulation of `book_demo`: each falsy field
pushes its name, in source order; `start_time` is falsy exactly when the
field is absent or empty. -/
def missingFields (p : Payload) : List String :=
  (if isFalsy p.full_name then ["full_name"] else [])
    ++ (if isFalsy p.email then ["email"] else [])
    ++ (if isFalsy p.phone then ["phone"] else [])
    ++ (if isFalsy p.business_type then ["business_type"] else [])
    ++ (if p.start_time = none then ["start_time"] else [])

/-- Responses of the `/retell/book_demo` handler, one constructor per
`res.json`/`res.status` site. -/
inductive BookResult where
  /-- 400 `"Missing required fields"` with the `missing` list. -/
  | missingFieldsError (fields : List String)
  /-- `status: "invalid_time"` with alternatives from
  `getNextAvailableSlots`. -/
  | invalidTime (alternatives : List Slot)
  /-- `status: "unavailable"` with the requested slot and nearby
  alternatives. -/
  | unavailable (requested : Slot) (alternatives : List Slot)
  /-- `status: "confirmed"` with the committed slot and calendar link. -/
  | confirmed (slot : Slot) (link : String)
  /-- 500 `status: "error"`: an external call threw inside the handler's
  `try` and the `catch` produced the generic failure. -/
  | serverError
deriving Repr, DecidableEq

/-- Embeds the `/retell/book_demo` handler of the validated variant
(`validateRequestedStart` then busy re-check then insert then sheet
append).  External collaborators are parameters: `busyReq` is the busy
answer for the requested window, `busyHorizon` the answer for the
`getNextAvailableSlots` range, `busyNearby` the answer for the
`findNearbyFreeSlots` range; `reserve` is `calendar.events.insert`
(`some link` on success, `none` when the call throws), `appendOk` whether
`sheets.values.append` succeeds.  The second component records whether the
calendar reservation was committed; no code path ever deletes a committed
event, so the flag never reverts to `false`. -/
def bookDemo (cfg : Config) (now : Nat) (p : Payload)
    (busyHorizon busyReq busyNearby : List Slot)
    (reserve : Option String) (appendOk : Bool) : BookResult × Bool :=
  match missingFields p with
  | f :: fs => (.missingFieldsError (f :: fs), false)
  | [] =>
    match validateRequestedStart cfg now p.start_time with
    | .ok t =>
        let s : Slot := ⟨t, t + cfg.durationMinutes * 60⟩
        if slotIsFree s busyReq then
          match reserve with
          | none => (.serverError, false)
          | some link =>
              if appendOk then (.confirmed s link, true) else (.serverError, true)
        else (.unavailable s (findNearbyFreeSlots cfg t busyNearby 2), false)
    | _ => (.invalidTime (getNextAvailableSlots cfg now busyHorizon 2), false)

/-- Embeds the `/retell/get_slots` handler of the first server variant,
which reads `slots[0].start` and `slots.at(-1).end` with no emptiness
check and no `try`/`catch`: `none` models the uncaught `TypeError` thrown
when the candidate list is empty; otherwise the handler responds with the
first two free slots. -/
def getSlotsHandlerV1 (cfg : Config) (now : Nat) (busy : List Slot) :
    Option (List Slot) :=
  match buildCandidateSlots cfg now with
  | [] => none
  | c :: cs => some ((freeSlots (c :: cs) busy).take 2)

/-- Embeds the `/retell/get_nearby_slots` handler of the first server
variant: candidates from `preferred.minus({days: 1})`, unguarded
`slots[0].start` (hence `none` on an empty candidate list), then free
slots sorted by distance to `preferred`, first two. -/
def getNearbySlotsHandlerV1 (cfg : Config) (preferred : Nat)
    (busy : List Slot) : Option (List Slot) :=
  match buildCandidateSlots cfg (preferred - 86400) with
  | [] => none
  | c :: cs => some ((sortByDist preferred (freeSlots (c :: cs) busy)).take 2)

/-! Lemmas about the candidate-generation loops. -/

/-- Every slot emitted by the inner cursor loop starts at or after both the
`earliest` guard and the initial cursor, has the fixed duration, and ends
by the day's business end. -/
theorem slotLoop_mem {e dur step dayEnd : Nat} :
    ∀ {fuel cursor : Nat} {s : Slot}, s ∈ slotLoop e dur step dayEnd cursor fuel →
      e ≤ s.start ∧ cursor ≤ s.start ∧ s.«end» = s.start + dur ∧ s.«end» ≤ dayEnd := by
  intro fuel
  induction fuel with
  | zero => intro cursor s h; simp [slotLoop] at h
  | succ n ih =>
      intro cursor s h
      simp only [slotLoop] at h
      by_cases hc : cursor + dur ≤ dayEnd
      · rw [if_pos hc] at h
        rcases List.mem_append.mp h with h1 | h2
        · by_cases he : e ≤ cursor
          · rw [if_pos he] at h1
            simp only [List.mem_singleton] at h1
            subst h1
            exact ⟨he, Nat.le_refl _, rfl, hc⟩
          · rw [if_neg he] at h1
            simp at h1
        · obtain ⟨h1, h2', h3, h4⟩ := ih h2
          exact ⟨h1, by omega, h3, h4⟩
      · rw [if_neg hc] at h
        simp at h

/-- With a positive step, the cursor loop emits strictly increasing start
instants. -/
theorem slotLoop_pairwise {e dur step dayEnd : Nat} (hstep : 0 < step) :
    ∀ {fuel cursor : Nat},
      List.Pairwise (fun a b : Slot => a.start < b.start)
        (slotLoop e dur step dayEnd cursor fuel) := by
  intro fuel
  induction fuel with
  | zero => intro cursor; simp [slotLoop]
  | succ n ih =>
      intro cursor
      simp only [slotLoop]
      by_cases hc : cursor + dur ≤ dayEnd
      · rw [if_pos hc]
        refine List.pairwise_append.mpr ⟨?_, ih, ?_⟩
        · by_cases he : e ≤ cursor
          · rw [if_pos he]; simp
          · rw [if_neg he]; simp
        · intro a ha b hb
          have hb' := (slotLoop_mem hb).2.1
          by_cases he : e ≤ cursor
          · rw [if_pos he] at ha
            simp only [List.mem_singleton] at ha
            subst ha
            show cursor < b.start
            omega
          · rw [if_neg he] at ha
            simp at ha
      · rw [if_neg hc]; simp

/-- The loop's explicit iteration bound is never the reason it stops: once
the bound covers the remaining cursor range, adding fuel does not change
the result. -/
theorem slotLoop_fuel_stable {e dur step dayEnd : Nat} :
    ∀ {fuel fuel' cursor : Nat}, dayEnd < cursor + step * fuel → fuel ≤ fuel' →
      slotLoop e dur step dayEnd cursor fuel = slotLoop e dur step dayEnd cursor fuel' := by
  intro fuel
  induction fuel with
  | zero =>
      intro fuel' cursor hb _
      cases fuel' with
      | zero => rfl
      | succ m =>
          simp only [slotLoop]
          rw [if_neg (by omega)]
  | succ n ih =>
      intro fuel' cursor hb hle
      cases fuel' with
      | zero => omega
      | succ m =>
          simp only [slotLoop]
          by_cases hc : cursor + dur ≤ dayEnd
          · rw [if_pos hc, if_pos hc]
            have hb' : dayEnd < cursor + step + step * n := by
              rw [Nat.mul_succ] at hb
              omega
            rw [@ih m (cursor + step) hb' (by omega)]
          · rw [if_neg hc, if_neg hc]

/-- The fuel passed at the call sites, `(dayEnd - cursor) / step + 1`,
satisfies the bound of `slotLoop_fuel_stable` whenever the step is
positive. -/
theorem callFuel_sufficient {cursor dayEnd step : Nat} (hstep : 0 < step) :
    dayEnd < cursor + step * ((dayEnd - cursor) / step + 1) := by
  have hdm := Nat.div_add_mod (dayEnd - cursor) step
  have hlt : (dayEnd - cursor) % step < step := Nat.mod_lt _ hstep
  rw [Nat.mul_succ]
  omega

/-- An instant inside a day whose midnight is `day` has `day` as its
`startOf("day")` and the day's weekday. -/
theorem sameDay_facts {day t : Nat} (hd : day % 86400 = 0) (h1 : day ≤ t)
    (h2 : t < day + 86400) : startOfDay t = day ∧ weekday t = weekday day := by
  have hq : t / 86400 = day / 86400 := by omega
  constructor
  · show t / 86400 * 86400 = day
    omega
  · show t / 86400 % 7 + 1 = day / 86400 % 7 + 1
    rw [hq]

/-- Every slot produced by the day loop starts at or after `earliest`, has
the fixed duration, starts on a weekday, sits inside the business-hour
window of its own local day, and lies within the `n`-day horizon beginning
at `day`. -/
theorem buildFrom_mem {e dur step startMin endMin : Nat} (hdur : 0 < dur)
    (hend : endMin ≤ 86400) :
    ∀ {n day : Nat} {s : Slot}, day % 86400 = 0 →
      s ∈ buildFrom e dur step startMin endMin day n →
        e ≤ s.start ∧ s.«end» = s.start + dur ∧ isWeekday s.start = true ∧
        startOfDay s.start + startMin ≤ s.start ∧
        s.«end» ≤ startOfDay s.start + endMin ∧
        day ≤ s.start ∧ s.«end» ≤ day + n * 86400 := by
  intro n
  induction n with
  | zero => intro day s _ h; simp [buildFrom] at h
  | succ m ih =>
      intro day s hd h
      simp only [buildFrom] at h
      rcases List.mem_append.mp h with h1 | h2
      · by_cases hw : isWeekday day
        · rw [if_pos hw] at h1
          obtain ⟨he, hcur, hdur', hend'⟩ := slotLoop_mem h1
          have hlow : day ≤ s.start := by omega
          have hhigh : s.start < day + 86400 := by omega
          obtain ⟨hsod, hwd⟩ := sameDay_facts hd hlow hhigh
          refine ⟨he, hdur', ?_, ?_, ?_, hlow, ?_⟩
          · show isWeekday s.start = true
            unfold isWeekday at hw ⊢
            rw [hwd]
            exact hw
          · rw [hsod]; omega
          · rw [hsod]; omega
          · omega
        · rw [if_neg hw] at h1
          simp at h1
      · have hd' : (day + 86400) % 86400 = 0 := by omega
        obtain ⟨a1, a2, a3, a4, a5, a6, a7⟩ := ih hd' h2
        refine ⟨a1, a2, a3, a4, a5, by omega, by omega⟩

/-- With a positive step and duration, the day loop emits strictly
increasing start instants across the whole horizon. -/
theorem buildFrom_pairwise {e dur step startMin endMin : Nat} (hstep : 0 < step)
    (hdur : 0 < dur) (hend : endMin ≤ 86400) :
    ∀ {n day : Nat}, day % 86400 = 0 →
      List.Pairwise (fun a b : Slot => a.start < b.start)
        (buildFrom e dur step startMin endMin day n) := by
  intro n
  induction n with
  | zero => intro day _; simp [buildFrom]
  | succ m ih =>
      intro day hd
      simp only [buildFrom]
      have hd' : (day + 86400) % 86400 = 0 := by omega
      refine List.pairwise_append.mpr ⟨?_, ih hd', ?_⟩
      · by_cases hw : isWeekday day
        · rw [if_pos hw]; exact slotLoop_pairwise hstep
        · rw [if_neg hw]; simp
      · intro a ha b hb
        have hbb := (buildFrom_mem hdur hend hd' hb).2.2.2.2.2.1
        by_cases hw : isWeekday day
        · rw [if_pos hw] at ha
          have haa := (slotLoop_mem ha).2.2
          omega
        · rw [if_neg hw] at ha
          simp at ha

/-- Unfolding equation for `buildCandidateSlots`. -/
theorem buildCandidateSlots_def (cfg : Config) (now : Nat) :
    buildCandidateSlots cfg now =
      buildFrom (now + cfg.leadMinutes * 60) (cfg.durationMinutes * 60)
        (cfg.stepMinutes * 60) (cfg.startHour * 3600) (cfg.endHour * 3600)
        (startOfDay (now + cfg.leadMinutes * 60)) cfg.searchDays := rfl

/-- Unfolding equation for `nearbyCandidates`. -/
theorem nearbyCandidates_def (cfg : Config) (preferred : Nat) :
    nearbyCandidates cfg preferred =
      buildFrom 0 (cfg.durationMinutes * 60) (cfg.stepMinutes * 60)
        (cfg.startHour * 3600) (cfg.endHour * 3600) (startOfDay preferred) 5 := rfl

/-- C1: for every configuration with positive step and duration (and an
hour-of-day business end, the only values luxon's `set({hour})` admits),
every slot emitted by `buildCandidateSlots` has the fixed duration, starts
at or after `now + leadMinutes`, starts on an ISO weekday 1-5, lies inside
the `[businessStartHour, businessEndHour]` window of its own local day,
and the emitted sequence is strictly ascending chronologically. -/
theorem candidateSlots_wellFormed (cfg : Config) (now : Nat)
    (hstep : 0 < cfg.stepMinutes) (hdur : 0 < cfg.durationMinutes)
    (hend : cfg.endHour ≤ 24) :
    (∀ s ∈ buildCandidateSlots cfg now,
      s.«end» = s.start + cfg.durationMinutes * 60 ∧
      now + cfg.leadMinutes * 60 ≤ s.start ∧
      isWeekday s.start = true ∧
      startOfDay s.start + cfg.startHour * 3600 ≤ s.start ∧
      s.«end» ≤ startOfDay s.start + cfg.endHour * 3600) ∧
    List.Pairwise (fun a b : Slot => a.start < b.start)
      (buildCandidateSlots cfg now) := by
  have hdvd : startOfDay (now + cfg.leadMinutes * 60) % 86400 = 0 := by
    unfold startOfDay
    omega
  have hend2 : cfg.endHour * 3600 ≤ 86400 := by omega
  have hdur2 : 0 < cfg.durationMinutes * 60 := by omega
  have hstep2 : 0 < cfg.stepMinutes * 60 := by omega
  rw [buildCandidateSlots_def]
  constructor
  · intro s hs
    obtain ⟨a1, a2, a3, a4, a5, _, _⟩ := buildFrom_mem hdur2 hend2 hdvd hs
    exact ⟨a2, a1, a3, a4, a5⟩
  · exact buildFrom_pairwise hstep2 hdur2 hend2 hdvd

/-- Witness for `candidateSlots_wellFormed` at the spec's scenario
configuration (lead 120, duration 30, step 30, horizon 14, hours 9-17)
with now = Monday 08:00 local. -/
theorem candidateSlots_wellFormed_witness :
    (0 < 30 ∧ 0 < 30 ∧ 17 ≤ 24) ∧
    ((∀ s ∈ buildCandidateSlots ⟨120, 30, 30, 14, 9, 17⟩ 28800,
      s.«end» = s.start + 30 * 60 ∧
      28800 + 120 * 60 ≤ s.start ∧
      isWeekday s.start = true ∧
      startOfDay s.start + 9 * 3600 ≤ s.start ∧
      s.«end» ≤ startOfDay s.start + 17 * 3600) ∧
    List.Pairwise (fun a b : Slot => a.start < b.start)
      (buildCandidateSlots ⟨120, 30, 30, 14, 9, 17⟩ 28800)) :=
  ⟨by decide,
    candidateSlots_wellFormed ⟨120, 30, 30, 14, 9, 17⟩ 28800
      (by decide) (by decide) (by decide)⟩

/-- C6: the availability filter yields an order-preserving subsequence of
its input holding exactly the slots that overlap no busy interval, where
overlap is the half-open test `a.start < b.end AND b.start < a.end`; a
slot merely touching a busy interval's endpoint is kept as free. -/
theorem availabilityFilter_correct (slots busy : List Slot) :
    (freeSlots slots busy).Sublist slots ∧
    (∀ s, s ∈ freeSlots slots busy ↔ s ∈ slots ∧ slotIsFree s busy = true) ∧
    (∀ s, slotIsFree s busy = true ↔
      ∀ b ∈ busy, ¬(s.start < b.«end» ∧ b.start < s.«end»)) ∧
    (∀ s b : Slot, s.«end» ≤ b.start ∨ b.«end» ≤ s.start →
      overlaps s b = false) := by
  refine ⟨List.filter_sublist _, fun s => List.mem_filter, fun s => ?_, fun s b h => ?_⟩
  · simp [slotIsFree, overlaps]
  · simp only [overlaps, Bool.and_eq_false_imp, decide_eq_false_iff_not]
    simp only [Bool.and_eq_true, decide_eq_true_eq, Bool.not_eq_true]
    rcases h with h | h <;> simp <;> omega

/-- Witness for `availabilityFilter_correct`: a slot ending exactly where
a busy interval starts does not overlap it. -/
theorem availabilityFilter_correct_witness :
    overlaps ⟨0, 10⟩ ⟨10, 20⟩ = false :=
  (availabilityFilter_correct [] []).2.2.2 ⟨0, 10⟩ ⟨10, 20⟩ (Or.inl (by decide))

/-! Lemmas about the distance sort and nearby-slot selection. -/

/-- Membership in a stable-insertion step. -/
theorem mem_insertByDist {preferred : Nat} {s a : Slot} :
    ∀ {l : List Slot}, a ∈ insertByDist preferred s l ↔ a = s ∨ a ∈ l := by
  intro l
  induction l with
  | nil => simp [insertByDist]
  | cons b t ih =>
      simp only [insertByDist]
      by_cases h : distTo preferred b < distTo preferred s
      · rw [if_pos h]
        simp [ih]
        tauto
      · rw [if_neg h]
        simp

/-- The distance sort is a permutation up to membership. -/
theorem mem_sortByDist {preferred : Nat} {a : Slot} :
    ∀ {l : List Slot}, a ∈ sortByDist preferred l ↔ a ∈ l := by
  intro l
  induction l with
  | nil => simp [sortByDist]
  | cons s t ih => simp [sortByDist, mem_insertByDist, ih]

/-- Stable insertion preserves the distance ordering. -/
theorem pairwise_insertByDist {preferred : Nat} {s : Slot} :
    ∀ {l : List Slot},
      List.Pairwise (fun a b => distTo preferred a ≤ distTo preferred b) l →
      List.Pairwise (fun a b => distTo preferred a ≤ distTo preferred b)
        (insertByDist preferred s l) := by
  intro l
  induction l with
  | nil => intro _; simp [insertByDist]
  | cons b t ih =>
      intro hp
      rw [List.pairwise_cons] at hp
      obtain ⟨hb, ht⟩ := hp
      simp only [insertByDist]
      by_cases h : distTo preferred b < distTo preferred s
      · rw [if_pos h, List.pairwise_cons]
        refine ⟨fun c hc => ?_, ih ht⟩
        rw [mem_insertByDist] at hc
        rcases hc with rfl | hc
        · omega
        · exact hb c hc
      · rw [if_neg h, List.pairwise_cons]
        refine ⟨fun c hc => ?_, List.pairwise_cons.mpr ⟨hb, ht⟩⟩
        rcases List.mem_cons.mp hc with rfl | hc
        · omega
        · exact Nat.le_trans (by omega) (hb c hc)

/-- The distance sort output is ordered by ascending distance. -/
theorem pairwise_sortByDist {preferred : Nat} :
    ∀ {l : List Slot},
      List.Pairwise (fun a b => distTo preferred a ≤ distTo preferred b)
        (sortByDist preferred l) := by
  intro l
  induction l with
  | nil => simp [sortByDist]
  | cons s t ih => exact pairwise_insertByDist ih

/-- The selection loop only ever appends a sublist of its remaining input
to the accumulator. -/
theorem nearbyLoop_append (busy : List Slot) (count : Nat) :
    ∀ (l acc : List Slot), ∃ l2, l2.Sublist l ∧
      nearbyLoop busy count acc l = acc ++ l2 := by
  intro l
  induction l with
  | nil => intro acc; exact ⟨[], List.Sublist.refl _, by simp [nearbyLoop]⟩
  | cons s rest ih =>
      intro acc
      simp only [nearbyLoop]
      by_cases h1 : slotIsFree s busy && !(acc.any fun x => x.start == s.start)
      · rw [if_pos h1]
        by_cases h2 : count ≤ (acc ++ [s]).length
        · rw [if_pos h2]
          exact ⟨[s], List.singleton_sublist.mpr (List.mem_cons_self s rest), rfl⟩
        · rw [if_neg h2]
          obtain ⟨l2, hsub, heq⟩ := ih (acc ++ [s])
          refine ⟨s :: l2, List.Sublist.cons₂ s hsub, ?_⟩
          rw [heq, List.append_assoc]
          rfl
      · rw [if_neg h1]
        obtain ⟨l2, hsub, heq⟩ := ih acc
        exact ⟨l2, List.Sublist.cons s hsub, heq⟩

/-- The nearby-slot result is a sublist of the distance-sorted candidate
list. -/
theorem findNearby_sublist (cfg : Config) (preferred : Nat) (busy : List Slot)
    (count : Nat) :
    (findNearbyFreeSlots cfg preferred busy count).Sublist
      (sortByDist preferred (nearbyCandidates cfg preferred)) := by
  unfold findNearbyFreeSlots
  cases hc : nearbyCandidates cfg preferred with
  | nil => simp
  | cons c cs =>
      obtain ⟨l2, hsub, heq⟩ := nearbyLoop_append busy count
        (sortByDist preferred (c :: cs)) []
      show (nearbyLoop busy count [] (sortByDist preferred (c :: cs))).Sublist
        (sortByDist preferred (c :: cs))
      rw [heq]
      simpa using hsub

/-- C2 (amended): the list returned by `findNearbyFreeSlots` is in
ascending order of absolute distance `|slot.start - preferred|` — the
selection order — and is not re-sorted chronologically before being
returned. -/
theorem nearby_distance_order (cfg : Config) (preferred : Nat)
    (busy : List Slot) (count : Nat) :
    List.Pairwise (fun a b => distTo preferred a ≤ distTo preferred b)
      (findNearbyFreeSlots cfg preferred busy count) :=
  List.Pairwise.sublist (findNearby_sublist cfg preferred busy count)
    pairwise_sortByDist

/-- C2 counterexample: with business hours 12-14, step 30, an empty busy
set and preferred = Monday 13:20 local, the two returned alternatives are
the 13:30 slot followed by the 13:00 slot — not chronologically sorted,
refuting the claimed final chronological re-sort. -/
theorem nearby_not_chronological :
    findNearbyFreeSlots ⟨120, 30, 30, 14, 12, 14⟩ 48000 [] 2 =
      [⟨48600, 50400⟩, ⟨46800, 48600⟩] ∧
    ¬ List.Pairwise (fun a b : Slot => a.start ≤ b.start)
        (findNearbyFreeSlots ⟨120, 30, 30, 14, 12, 14⟩ 48000 [] 2) := by
  constructor
  · decide
  · decide

/-- C10: every alternative returned by `findNearbyFreeSlots` starts inside
the 5 calendar days beginning at the preferred instant's own local day;
the search takes no `now` and no lead time, and concretely (hours 12-14,
preferred Monday 13:00, `now` = Tuesday 09:00) it returns an alternative
starting before `now` and before `now + leadMinutes`. -/
theorem nearby_window_ignores_now (cfg : Config) (preferred : Nat)
    (busy : List Slot) (count : Nat) (hdur : 0 < cfg.durationMinutes)
    (hend : cfg.endHour ≤ 24) :
    (∀ s ∈ findNearbyFreeSlots cfg preferred busy count,
      startOfDay preferred ≤ s.start ∧
      s.start < startOfDay preferred + 5 * 86400) ∧
    (∃ s ∈ findNearbyFreeSlots ⟨120, 30, 30, 14, 12, 14⟩ 46800 [] 2,
      s.start < 118800 ∧ s.start < 118800 + 120 * 60) := by
  constructor
  · intro s hs
    have hmem : s ∈ sortByDist preferred (nearbyCandidates cfg preferred) :=
      (findNearby_sublist cfg preferred busy count).subset hs
    rw [mem_sortByDist, nearbyCandidates_def] at hmem
    have hdvd : startOfDay preferred % 86400 = 0 := by
      unfold startOfDay
      omega
    obtain ⟨_, a2, _, _, _, a6, a7⟩ :=
      buildFrom_mem (e := 0) (by omega) (by omega : cfg.endHour * 3600 ≤ 86400) hdvd hmem
    exact ⟨a6, by omega⟩
  · decide

/-- Witness for `nearby_window_ignores_now` at the concrete configuration
with hours 12-14 and preferred = Monday 13:20. -/
theorem nearby_window_ignores_now_witness :
    (0 < 30 ∧ 14 ≤ 24) ∧
    ((∀ s ∈ findNearbyFreeSlots ⟨120, 30, 30, 14, 12, 14⟩ 48000 [] 2,
      startOfDay 48000 ≤ s.start ∧ s.start < startOfDay 48000 + 5 * 86400) ∧
    (∃ s ∈ findNearbyFreeSlots ⟨120, 30, 30, 14, 12, 14⟩ 46800 [] 2,
      s.start < 118800 ∧ s.start < 118800 + 120 * 60)) :=
  ⟨by decide,
    nearby_window_ignores_now ⟨120, 30, 30, 14, 12, 14⟩ 48000 [] 2
      (by decide) (by decide)⟩

/-- C7 (amended): with respect to business hours the validator accepts a
requested instant exactly when `start >= dayStart` and `start + duration
<= dayEnd` — a closed bound at the end instant, not a half-open one; it
reports `outside_business_hours` exactly when the earlier checks pass and
that closed-window condition fails. -/
theorem validator_hours_closedEnd (cfg : Config) (now t : Nat) :
    validateRequestedStart cfg now (some (some t)) = .outsideHours ↔
      (now + cfg.leadMinutes * 60 ≤ t ∧ isWeekday t = true ∧
        ¬(startOfDay t + cfg.startHour * 3600 ≤ t ∧
          t + cfg.durationMinutes * 60 ≤ startOfDay t + cfg.endHour * 3600)) := by
  simp only [validateRequestedStart]
  split_ifs with h1 h2 h3 h4 <;> simp_all <;> omega

/-- C7 counterexample: with hours 12-21 and duration 30, the request
Monday 20:30 local is accepted although its end instant 21:00 is not
strictly inside the `[12:00, 21:00)` half-open window, refuting the
half-open bound on the slot's end. -/
theorem validator_hours_counterexample :
    validateRequestedStart ⟨120, 30, 30, 5, 12, 21⟩ 43200 (some (some 73800)) =
      .ok 73800 ∧
    ¬(73800 + 30 * 60 < startOfDay 73800 + 21 * 3600) := by decide

/-- Witness for `validator_hours_closedEnd` at a concrete out-of-window
request (Monday 22:00 with hours 12-21). -/
theorem validator_hours_closedEnd_witness :
    validateRequestedStart ⟨120, 30, 30, 5, 12, 21⟩ 43200 (some (some 79200)) =
        .outsideHours ↔
      (43200 + 120 * 60 ≤ 79200 ∧ isWeekday 79200 = true ∧
        ¬(startOfDay 79200 + 12 * 3600 ≤ 79200 ∧
          79200 + 30 * 60 ≤ startOfDay 79200 + 21 * 3600)) :=
  validator_hours_closedEnd ⟨120, 30, 30, 5, 12, 21⟩ 43200 79200

/-- C8 (amended): the granularity check inspects only the minute-of-hour
component of the requested instant modulo the step (`start.minute % step`),
ignoring seconds; it reports `bad_granularity` exactly when all earlier
checks pass and that minute test fails, so an accepted instant starts on a
step-minute boundary only up to a sub-minute remainder. -/
theorem validator_granularity_minuteOnly (cfg : Config) (now t : Nat) :
    validateRequestedStart cfg now (some (some t)) = .badGranularity ↔
      (now + cfg.leadMinutes * 60 ≤ t ∧ isWeekday t = true ∧
        startOfDay t + cfg.startHour * 3600 ≤ t ∧
        t + cfg.durationMinutes * 60 ≤ startOfDay t + cfg.endHour * 3600 ∧
        ¬(cfg.stepMinutes ≠ 0 ∧ minuteOfHour t % cfg.stepMinutes = 0)) := by
  simp only [validateRequestedStart, granularityOk]
  split_ifs with h1 h2 h3 h4 <;> simp_all <;> omega

/-- C8 counterexample: the instant Monday 12:30:15 local (45015 seconds)
is accepted by the validator although it is 15 seconds past the half-hour
boundary, so an accepted start need not lie exactly on the configured
granularity boundary. -/
theorem validator_granularity_counterexample :
    validateRequestedStart ⟨120, 30, 30, 5, 12, 21⟩ 36000 (some (some 45015)) =
      .ok 45015 ∧
    45015 % 60 = 15 ∧ ¬((45015 - startOfDay 45015) % (30 * 60) = 0) := by decide

/-- Witness for `validator_granularity_minuteOnly` at a concrete
misaligned request (Monday 12:10 with step 30). -/
theorem validator_granularity_minuteOnly_witness :
    validateRequestedStart ⟨120, 30, 30, 5, 12, 21⟩ 36000 (some (some 43800)) =
        .badGranularity ↔
      (36000 + 120 * 60 ≤ 43800 ∧ isWeekday 43800 = true ∧
        startOfDay 43800 + 12 * 3600 ≤ 43800 ∧
        43800 + 30 * 60 ≤ startOfDay 43800 + 21 * 3600 ∧
        ¬(30 ≠ 0 ∧ minuteOfHour 43800 % 30 = 0)) :=
  validator_granularity_minuteOnly ⟨120, 30, 30, 5, 12, 21⟩ 36000 43800

/-! Lemmas about first-N selection and the booking orchestrator. -/

/-- Every slot returned by the first-N loop comes from the candidate list
and is free. -/
theorem takeFreeLoop_mem (busy : List Slot) (count : Nat) :
    ∀ (l : List Slot) (k : Nat) (s : Slot), s ∈ takeFreeLoop busy count k l →
      s ∈ l ∧ slotIsFree s busy = true := by
  intro l
  induction l with
  | nil => intro k s h; simp [takeFreeLoop] at h
  | cons c rest ih =>
      intro k s h
      simp only [takeFreeLoop] at h
      by_cases h1 : slotIsFree c busy
      · rw [if_pos h1] at h
        by_cases h2 : count ≤ k + 1
        · rw [if_pos h2] at h
          simp only [List.mem_singleton] at h
          subst h
          exact ⟨List.mem_cons_self _ _, h1⟩
        · rw [if_neg h2] at h
          rcases List.mem_cons.mp h with rfl | h
          · exact ⟨List.mem_cons_self s rest, h1⟩
          · obtain ⟨hm, hf⟩ := ih (k + 1) s h
            exact ⟨List.mem_cons_of_mem c hm, hf⟩
      · rw [if_neg h1] at h
        obtain ⟨hm, hf⟩ := ih k s h
        exact ⟨List.mem_cons_of_mem c hm, hf⟩

/-- The first-N loop never returns more than the remaining budget. -/
theorem takeFreeLoop_length (busy : List Slot) (count : Nat) :
    ∀ (l : List Slot) (k : Nat), k < count →
      (takeFreeLoop busy count k l).length ≤ count - k := by
  intro l
  induction l with
  | nil => intro k hk; simp [takeFreeLoop]
  | cons c rest ih =>
      intro k hk
      simp only [takeFreeLoop]
      by_cases h1 : slotIsFree c busy
      · rw [if_pos h1]
        by_cases h2 : count ≤ k + 1
        · rw [if_pos h2]
          simp
          omega
        · rw [if_neg h2]
          have := ih (k + 1) (by omega)
          simp only [List.length_cons]
          omega
      · rw [if_neg h1]
        exact ih k hk

/-- The alternatives computed by `getNextAvailableSlots` for a count of 2
are at most two free members of the candidate list. -/
theorem getNext_spec (cfg : Config) (now : Nat) (busy : List Slot) :
    (getNextAvailableSlots cfg now busy 2).length ≤ 2 ∧
    ∀ a ∈ getNextAvailableSlots cfg now busy 2,
      slotIsFree a busy = true ∧ a ∈ buildCandidateSlots cfg now := by
  cases hc : buildCandidateSlots cfg now with
  | nil =>
      have hred : getNextAvailableSlots cfg now busy 2 = [] := by
        unfold getNextAvailableSlots
        rw [hc]
      rw [hred]
      simp
  | cons c cs =>
      have hred : getNextAvailableSlots cfg now busy 2 =
          takeFreeLoop busy 2 0 (c :: cs) := by
        unfold getNextAvailableSlots
        rw [hc]
      rw [hred]
      constructor
      · have := takeFreeLoop_length busy 2 (c :: cs) 0 (by omega)
        omega
      · intro a ha
        obtain ⟨hm, hf⟩ := takeFreeLoop_mem busy 2 (c :: cs) 0 a ha
        exact ⟨hf, hc ▸ hm⟩

/-- C3 (amended): when the calendar reservation succeeds and the
subsequent log-record append fails, `book_demo` reports the generic
failure outcome (HTTP 500 `status: "error"`), not the confirmed outcome,
and the committed reservation is not rolled back (the reserved flag stays
set; no code path deletes the event). -/
theorem booking_logFailure_keepsReservation (cfg : Config) (now : Nat)
    (p : Payload) (busyH busyR busyN : List Slot) (t : Nat) (link : String)
    (hm : missingFields p = [])
    (hv : validateRequestedStart cfg now p.start_time = .ok t)
    (hfree : slotIsFree ⟨t, t + cfg.durationMinutes * 60⟩ busyR = true) :
    bookDemo cfg now p busyH busyR busyN (some link) false =
      (.serverError, true) := by
  simp [bookDemo, hm, hv, hfree]

/-- C3 counterexample: a fully valid, free booking whose reservation
succeeds and whose sheet append fails yields the error outcome — not the
confirmed one the claim asserts — while the reservation stays committed. -/
theorem booking_logFailure_counterexample :
    bookDemo ⟨120, 30, 30, 5, 12, 21⟩ 43200
      ⟨some "Ada", some "a@b.c", some "555", some "law firm", none,
        some (some 50400)⟩
      [] [] [] (some "evt123") false = (.serverError, true) ∧
    BookResult.serverError ≠ BookResult.confirmed ⟨50400, 52200⟩ "evt123" := by
  constructor
  · decide
  · decide

/-- Witness for `booking_logFailure_keepsReservation` at a concrete valid
payload. -/
theorem booking_logFailure_keepsReservation_witness :
    (missingFields
        ⟨some "Ida", some "i@j.k", some "559", some "studio", none,
          some (some 50400)⟩ = [] ∧
      validateRequestedStart ⟨120, 30, 30, 5, 12, 21⟩ 43200
        (some (some 50400)) = .ok 50400 ∧
      slotIsFree ⟨50400, 50400 + 30 * 60⟩ [] = true) ∧
    bookDemo ⟨120, 30, 30, 5, 12, 21⟩ 43200
      ⟨some "Ida", some "i@j.k", some "559", some "studio", none,
        some (some 50400)⟩
      [] [] [] (some "evt9") false = (.serverError, true) :=
  ⟨⟨by decide, by decide, by decide⟩,
    booking_logFailure_keepsReservation ⟨120, 30, 30, 5, 12, 21⟩ 43200
      ⟨some "Ida", some "i@j.k", some "559", some "studio", none,
        some (some 50400)⟩
      [] [] [] 50400 "evt9" (by decide) (by decide) (by decide)⟩

/-- C4 (amended): when the fields are present but the requested instant
fails validation, `book_demo` returns the invalid-time outcome together
with up to two (possibly zero, when no free candidate exists) alternative
slots, each free and drawn from the candidate generator. -/
theorem booking_invalidTime_alternatives (cfg : Config) (now : Nat)
    (p : Payload) (busyH busyR busyN : List Slot) (reserve : Option String)
    (ap : Bool) (hm : missingFields p = [])
    (hv : (validateRequestedStart cfg now p.start_time).isOk = false) :
    bookDemo cfg now p busyH busyR busyN reserve ap =
      (.invalidTime (getNextAvailableSlots cfg now busyH 2), false) ∧
    (getNextAvailableSlots cfg now busyH 2).length ≤ 2 ∧
    ∀ a ∈ getNextAvailableSlots cfg now busyH 2,
      slotIsFree a busyH = true ∧ a ∈ buildCandidateSlots cfg now := by
  refine ⟨?_, (getNext_spec cfg now busyH).1, (getNext_spec cfg now busyH).2⟩
  cases hval : validateRequestedStart cfg now p.start_time with
  | ok t => rw [hval] at hv; simp [Validation.isOk] at hv
  | missingStart => simp [bookDemo, hm, hval]
  | invalidFormat => simp [bookDemo, hm, hval]
  | tooSoon => simp [bookDemo, hm, hval]
  | nonBusinessDay => simp [bookDemo, hm, hval]
  | outsideHours => simp [bookDemo, hm, hval]
  | badGranularity => simp [bookDemo, hm, hval]

/-- C4 counterexample: a Saturday 10:00 request against a calendar whose
busy set covers the whole horizon returns the invalid-time outcome with an
empty alternatives list — not the claimed 1-2 usable alternatives. -/
theorem booking_invalidTime_empty :
    validateRequestedStart ⟨120, 30, 30, 5, 12, 21⟩ 43200
      (some (some 468000)) = .nonBusinessDay ∧
    bookDemo ⟨120, 30, 30, 5, 12, 21⟩ 43200
      ⟨some "Bob", some "b@c.d", some "556", some "cafe", none,
        some (some 468000)⟩
      [⟨0, 10000000⟩] [] [] none true = (.invalidTime [], false) := by
  constructor
  · decide
  · decide

/-- Witness for `booking_invalidTime_alternatives` at a concrete Saturday
request with an empty busy set (two alternatives exist). -/
theorem booking_invalidTime_alternatives_witness :
    (missingFields
        ⟨some "Eve", some "e@f.g", some "557", some "bar", none,
          some (some 468000)⟩ = [] ∧
      (validateRequestedStart ⟨120, 30, 30, 5, 12, 21⟩ 43200
        (some (some 468000))).isOk = false) ∧
    (bookDemo ⟨120, 30, 30, 5, 12, 21⟩ 43200
      ⟨some "Eve", some "e@f.g", some "557", some "bar", none,
        some (some 468000)⟩
      [] [] [] none true =
        (.invalidTime (getNextAvailableSlots ⟨120, 30, 30, 5, 12, 21⟩ 43200 [] 2),
          false) ∧
    (getNextAvailableSlots ⟨120, 30, 30, 5, 12, 21⟩ 43200 [] 2).length ≤ 2 ∧
    ∀ a ∈ getNextAvailableSlots ⟨120, 30, 30, 5, 12, 21⟩ 43200 [] 2,
      slotIsFree a [] = true ∧
        a ∈ buildCandidateSlots ⟨120, 30, 30, 5, 12, 21⟩ 43200) :=
  ⟨⟨by decide, by decide⟩,
    booking_invalidTime_alternatives ⟨120, 30, 30, 5, 12, 21⟩ 43200
      ⟨some "Eve", some "e@f.g", some "557", some "bar", none,
        some (some 468000)⟩
      [] [] [] none true (by decide) (by decide)⟩

/-- C9 (amended): `book_demo` treats `business_type` as required: any
request whose other required fields are present but whose `business_type`
is absent or empty is rejected with the missing-required-fields error
naming `business_type`. -/
theorem booking_requires_businessType (cfg : Config) (now : Nat) (p : Payload)
    (busyH busyR busyN : List Slot) (reserve : Option String) (ap : Bool)
    (h1 : isFalsy p.full_name = false) (h2 : isFalsy p.email = false)
    (h3 : isFalsy p.phone = false) (h4 : isFalsy p.business_type = true)
    (h5 : p.start_time ≠ none) :
    bookDemo cfg now p busyH busyR busyN reserve ap =
      (.missingFieldsError ["business_type"], false) := by
  have hm : missingFields p = ["business_type"] := by
    simp [missingFields, h1, h2, h3, h4, h5]
  simp [bookDemo, hm]

/-- C9 counterexample: a booking request supplying `full_name`, `email`,
`phone` and a requested instant but omitting `business_type` IS rejected
as missing required fields, refuting the claim that `business_type` is
optional. -/
theorem booking_businessType_counterexample :
    bookDemo ⟨120, 30, 30, 5, 12, 21⟩ 43200
      ⟨some "Cal", some "c@d.e", some "557", none, none, some (some 50400)⟩
      [] [] [] (some "evt7") true =
      (.missingFieldsError ["business_type"], false) := by decide

/-- Witness for `booking_requires_businessType` at a concrete payload with
an empty-string `business_type`. -/
theorem booking_requires_businessType_witness :
    (isFalsy (some "Dan") = false ∧ isFalsy (some "d@e.f") = false ∧
      isFalsy (some "558") = false ∧ isFalsy (some "") = true ∧
      (some (some 50400) : Option (Option Nat)) ≠ none) ∧
    bookDemo ⟨120, 30, 30, 5, 12, 21⟩ 43200
      ⟨some "Dan", some "d@e.f", some "558", some "", none, some (some 50400)⟩
      [] [] [] (some "evt8") true =
      (.missingFieldsError ["business_type"], false) :=
  ⟨⟨by decide, by decide, by decide, by decide, by decide⟩,
    booking_requires_businessType ⟨120, 30, 30, 5, 12, 21⟩ 43200
      ⟨some "Dan", some "d@e.f", some "558", some "", none, some (some 50400)⟩
      [] [] [] (some "evt8") true (by decide) (by decide) (by decide)
      (by decide) (by decide)⟩

/-- C5: with a configuration whose business window admits no slot
(`WORK_START_HOUR = 17`, `WORK_END_HOUR = 9`), the candidate generator is
empty; the first server variant's `/retell/get_slots` and
`/retell/get_nearby_slots` handlers then dereference `slots[0]` and throw
an uncaught TypeError (modelled as `none`), while `getNextAvailableSlots`
returns the empty list the contract demands. -/
theorem emptyCandidates_crash :
    buildCandidateSlots ⟨120, 30, 30, 14, 17, 9⟩ 28800 = [] ∧
    getSlotsHandlerV1 ⟨120, 30, 30, 14, 17, 9⟩ 28800 [] = none ∧
    getNearbySlotsHandlerV1 ⟨120, 30, 30, 14, 17, 9⟩ 200000 [] = none ∧
    getNextAvailableSlots ⟨120, 30, 30, 14, 17, 9⟩ 28800 [] 2 = [] := by
  refine ⟨by decide, by decide, by decide, by decide⟩

end RetellBooking
